import Mathlib

/-!
# ScholarAI — verification of the ingestion / retrieval pipeline

Shallow embedding of the ScholarAI server (`server.js`): the RAG knob
constants, the streaming chunker, the self-healing document store, the
fairness-capped scope limiter, the ranking step of `/api/ask`, the
summarize prompt assembly, the upload temp-file lifecycle, and the cosine
scorer.  JavaScript strings are modelled as `List Char`; the numeric
(floating-point) scorer is idealised over `ℝ`.
-/

namespace ScholarAI

/-- JavaScript string, modelled as a list of characters. -/
abbrev JStr := List Char

/-- A stored chunk: `{ id: i, text: t }` (only text is persisted). -/
structure Chunk where
  id : Nat
  text : JStr
deriving DecidableEq, Repr

/-- A stored document, as built by the upload route. -/
structure Doc where
  id : String
  name : String
  createdAt : String
  chunkCount : Nat
  chunks : List Chunk
deriving DecidableEq, Repr

/-- The persisted store: `{ docs: [...] }`. -/
structure Store where
  docs : List Doc
deriving DecidableEq, Repr

/-! ## RAG knobs (server.js lines 22–33) -/

def MAX_CHARS_PER_CHUNK : Nat := 3000
def CHUNK_OVERLAP : Nat := 200
def MAX_CHUNKS_PER_DOC : Nat := 300
def MAX_CHUNKS_FOR_ASK : Nat := 800
def EMBEDDING_BATCH_SIZE : Nat := 64
def MAX_TEXT_PER_FILE : Nat := 80000
def MAX_STORE_BYTES : Nat := 5 * 1024 * 1024

/-! ## Fairness cap (`limitScopeChunks`) -/

/-- `scopeDocs.reduce((s, d) => s + d.chunks.length, 0)`. -/
def totalChunks (scopeDocs : List Doc) : Nat :=
  scopeDocs.foldl (fun s d => s + d.chunks.length) 0

/-- `limitScopeChunks(scopeDocs, cap = MAX_CHUNKS_FOR_ASK)`:
if the total chunk count is within the cap every document keeps all of its
chunks; otherwise each document keeps its first
`Math.max(1, Math.floor(cap / scopeDocs.length))` chunks. -/
def limitScopeChunks (scopeDocs : List Doc) (cap : Nat) : List (Doc × List Chunk) :=
  if totalChunks scopeDocs ≤ cap then
    scopeDocs.map fun d => (d, d.chunks)
  else
    scopeDocs.map fun d => (d, d.chunks.take (max 1 (cap / scopeDocs.length)))

/-- `ceil(a / b)` on naturals. -/
def ceilDiv (a b : Nat) : Nat := (a + b - 1) / b

/-- A document consisting of `n` one-character chunks (test fixture). -/
def docWithChunks (name : String) (n : Nat) : Doc :=
  { id := name, name := name, createdAt := "t0", chunkCount := n
    chunks := (List.range n).map fun i => { id := i, text := ['x'] } }

/-- C1 (amended): when the total chunk count of the scope exceeds the
fairness cap C = 800, no document contributes more than `ceil(C/N)` chunks
to the candidate set and every document with at least one chunk contributes
at least one; when the total is within the cap, every document contributes
all of its chunks (which may exceed `ceil(C/N)`). -/
theorem limitScope_le_ceil_of_over_cap (scopeDocs : List Doc) (p : Doc × List Chunk)
    (hp : p ∈ limitScopeChunks scopeDocs MAX_CHUNKS_FOR_ASK) :
    (totalChunks scopeDocs ≤ 800 → p.2 = p.1.chunks) ∧
    (800 < totalChunks scopeDocs →
      p.2.length ≤ ceilDiv 800 scopeDocs.length ∧ (p.1.chunks ≠ [] → p.2 ≠ [])) := by
  unfold limitScopeChunks MAX_CHUNKS_FOR_ASK at hp
  by_cases h : totalChunks scopeDocs ≤ 800
  · rw [if_pos h] at hp
    obtain ⟨d, hd, rfl⟩ := List.mem_map.mp hp
    exact ⟨fun _ => rfl, fun hlt => absurd h (by omega)⟩
  · rw [if_neg h] at hp
    obtain ⟨d, hd, rfl⟩ := List.mem_map.mp hp
    have hN : 1 ≤ scopeDocs.length := List.length_pos.mpr (List.ne_nil_of_mem hd)
    refine ⟨fun hle => absurd hle h, fun _ => ⟨?_, ?_⟩⟩
    · have h1 : 800 / scopeDocs.length ≤ ceilDiv 800 scopeDocs.length :=
        Nat.div_le_div_right (by omega)
      have h2 : 1 ≤ ceilDiv 800 scopeDocs.length := by
        unfold ceilDiv
        exact (Nat.one_le_div_iff (by omega)).mpr (by omega)
      calc (d.chunks.take (max 1 (800 / scopeDocs.length))).length
          ≤ max 1 (800 / scopeDocs.length) := List.length_take_le _ _
        _ ≤ ceilDiv 800 scopeDocs.length := by
            exact max_le h2 h1
    · intro hne
      simp only [ne_eq, List.take_eq_nil_iff]
      push_neg
      exact ⟨by omega, hne⟩

set_option maxRecDepth 20000 in
/-- C1 (counterexample): with two documents of 500 and 1 chunks the total
(501) is within the cap, so `limitScopeChunks` passes every chunk through
and the 500-chunk document contributes 500 > ceil(800/2) = 400 chunks:
the claimed `ceil(C/N)` bound does not hold on the under-cap branch. -/
theorem limitScope_ceil_bound_counterexample :
    ¬ (∀ p ∈ limitScopeChunks [docWithChunks "A" 500, docWithChunks "B" 1]
          MAX_CHUNKS_FOR_ASK,
        p.2.length ≤ ceilDiv 800 ([docWithChunks "A" 500, docWithChunks "B" 1] :
          List Doc).length) := by
  decide

/-! ## Ranking step of `/api/ask` (lines 327–329) -/

/-- A scored candidate as built in `/api/ask`:
`{ docId, name, chunkId, text, score }`.  Scores are idealised as
rationals (the Embedding Service's vectors are external inputs). -/
structure ScoredItem where
  docId : String
  name : String
  chunkId : Nat
  text : JStr
  score : ℚ
deriving DecidableEq, Repr

/-- The comparator of `scored.sort((a, b) => b.score - a.score)`: an earlier
element `a` may stay before `b` exactly when `b.score - a.score ≤ 0`. -/
def scoreDescLE (a b : ScoredItem) : Bool := decide (b.score ≤ a.score)

/-- `scored.sort((a, b) => b.score - a.score)` — JavaScript
`Array.prototype.sort` is required to be stable (ES2019), embedded as the
stable merge sort. -/
def jsSortByScoreDesc (scored : List ScoredItem) : List ScoredItem :=
  scored.mergeSort scoreDescLE

/-- `scored.sort((a, b) => b.score - a.score).slice(0, k)` — the ranked
top-k of `/api/ask`. -/
def askTop (scored : List ScoredItem) (k : Nat) : List ScoredItem :=
  (jsSortByScoreDesc scored).take k

theorem scoreDescLE_trans (a b c : ScoredItem) :
    scoreDescLE a b → scoreDescLE b c → scoreDescLE a c := by
  simp only [scoreDescLE, decide_eq_true_eq]
  exact fun h1 h2 => le_trans h2 h1

theorem scoreDescLE_total (a b : ScoredItem) :
    scoreDescLE a b || scoreDescLE b a := by
  simp only [scoreDescLE, Bool.or_eq_true, decide_eq_true_eq]
  exact le_total _ _

/-- C3: the sequence returned by the ranking step of `/api/ask` has length
at most `k`, is sorted in descending score order, and is the `k`-prefix of
a stable descending sort of the scored candidates: the sorted list is a
permutation of the input in which every equal-score pair keeps its original
scan order. -/
theorem askTop_sorted_stable_length (scored : List ScoredItem) (k : Nat) :
    (askTop scored k).length ≤ k ∧
    (askTop scored k).Pairwise (fun a b => b.score ≤ a.score) ∧
    (jsSortByScoreDesc scored).Perm scored ∧
    (∀ x y : ScoredItem, x.score = y.score → [x, y].Sublist scored →
      [x, y].Sublist (jsSortByScoreDesc scored)) ∧
    askTop scored k = (jsSortByScoreDesc scored).take k := by
  refine ⟨List.length_take_le _ _, ?_, List.mergeSort_perm scored _, ?_, rfl⟩
  · have hs : (jsSortByScoreDesc scored).Pairwise (fun a b => scoreDescLE a b) :=
      List.sorted_mergeSort scoreDescLE_trans scoreDescLE_total scored
    have ht : (askTop scored k).Pairwise (fun a b => scoreDescLE a b) :=
      hs.sublist (List.take_sublist _ _)
    exact ht.imp fun h => by
      simpa only [scoreDescLE, decide_eq_true_eq] using h
  · intro x y hxy hsub
    exact List.pair_sublist_mergeSort scoreDescLE_trans scoreDescLE_total
      (by simp [scoreDescLE, hxy]) hsub

/-- A sample scored candidate for the C3 witness. -/
def demoItem (cid : Nat) (s : ℚ) : ScoredItem :=
  { docId := "d", name := "n", chunkId := cid, text := ['t'], score := s }

/-- C3 (witness): on a concrete candidate list with a score tie
(`demoItem 0` and `demoItem 2` both score 1), the top-2 has length ≤ 2 and
the tied pair keeps its scan order in the sorted list. -/
theorem askTop_sorted_stable_length_witness :
    (askTop [demoItem 0 1, demoItem 1 2, demoItem 2 1] 2).length ≤ 2 ∧
    [demoItem 0 1, demoItem 2 1].Sublist
      (jsSortByScoreDesc [demoItem 0 1, demoItem 1 2, demoItem 2 1]) := by
  refine ⟨(askTop_sorted_stable_length [demoItem 0 1, demoItem 1 2, demoItem 2 1] 2).1, ?_⟩
  refine (askTop_sorted_stable_length [demoItem 0 1, demoItem 1 2, demoItem 2 1] 2).2.2.2.1
    (demoItem 0 1) (demoItem 2 1) rfl ?_
  exact ((List.Sublist.refl [demoItem 2 1]).cons (demoItem 1 2)).cons₂ (demoItem 0 1)

/-! ## Document store (`loadStore` / `writeStore`, lines 63–87)

`JSON.parse` / `JSON.stringify` belong to the JavaScript runtime, so they
are treated as black-box parameters `parse` / `serialize`; a thrown parse
error (caught by the `try`/`catch`) is `parse _ = none`.  Sizes are
measured in characters of the content. -/

/-- The persisted store file: `none` = missing. -/
structure StoreFile where
  content : Option String
deriving DecidableEq, Repr

/-- A chunk as parsed from disk; may carry a legacy cached `embedding`. -/
structure ParsedChunk where
  id : Nat
  text : JStr
  embedding : Option (List ℚ)
deriving DecidableEq

/-- A document as parsed from disk. -/
structure ParsedDoc where
  id : String
  name : String
  createdAt : String
  chunkCount : Nat
  chunks : List ParsedChunk
deriving DecidableEq

/-- The parsed JSON shape of the store file; `docs` may be absent. -/
structure ParsedStore where
  docs : Option (List ParsedDoc)
deriving DecidableEq

/-- `delete c.embedding` — strip the legacy cached vector. -/
def stripChunk (c : ParsedChunk) : Chunk := { id := c.id, text := c.text }

def stripDoc (d : ParsedDoc) : Doc :=
  { id := d.id, name := d.name, createdAt := d.createdAt,
    chunkCount := d.chunkCount, chunks := d.chunks.map stripChunk }

def emptyStore : Store := { docs := [] }

/-- `writeStore(obj)`: serialize to a temp path, then rename into place;
the visible outcome is that the store path holds the serialized content. -/
def writeStore (serialize : Store → String) (s : Store) (_fs : StoreFile) :
    StoreFile :=
  { content := some (serialize s) }

/-- `loadStore()`: self-healing load (lines 70–86).  Missing file,
zero/oversize file, blank file, or a parse failure all reset the store to
`{docs: []}` and write it back; a successful parse defaults a missing
`docs` field and strips legacy embeddings. -/
def loadStore (parse : String → Option ParsedStore) (serialize : Store → String)
    (fs : StoreFile) : Store × StoreFile :=
  match fs.content with
  | none => (emptyStore, writeStore serialize emptyStore fs)
  | some content =>
    if content.length = 0 ∨ MAX_STORE_BYTES < content.length then
      (emptyStore, writeStore serialize emptyStore fs)
    else
      let raw := content.trim
      if raw = "" then (emptyStore, writeStore serialize emptyStore fs)
      else
        match parse raw with
        | none => (emptyStore, writeStore serialize emptyStore fs)
        | some parsed => ({ docs := (parsed.docs.getD []).map stripDoc }, fs)

/-- The four corrupt-store states of the claim: missing file, zero-byte
file, file over the byte ceiling, or unparseable content. -/
def badStoreFile (parse : String → Option ParsedStore) (fs : StoreFile) : Prop :=
  match fs.content with
  | none => True
  | some c => c.length = 0 ∨ MAX_STORE_BYTES < c.length ∨ parse c.trim = none

/-- C4: for every corrupt state of the persisted store file — missing,
zero-byte, over the 5MB ceiling, or unparseable — `loadStore` returns the
freshly initialized empty store and immediately writes a valid empty
structure back to the file; the load itself is total (no error escapes). -/
theorem loadStore_self_heals (parse : String → Option ParsedStore)
    (serialize : Store → String) (fs : StoreFile)
    (hbad : badStoreFile parse fs) :
    (loadStore parse serialize fs).1 = emptyStore ∧
    (loadStore parse serialize fs).2.content = some (serialize emptyStore) := by
  obtain ⟨c⟩ := fs
  cases c with
  | none => exact ⟨rfl, rfl⟩
  | some content =>
    simp only [badStoreFile] at hbad
    simp only [loadStore, writeStore]
    by_cases h0 : content.length = 0 ∨ MAX_STORE_BYTES < content.length
    · rw [if_pos h0]; exact ⟨rfl, rfl⟩
    · rw [if_neg h0]
      by_cases hraw : content.trim = ""
      · rw [if_pos hraw]; exact ⟨rfl, rfl⟩
      · rw [if_neg hraw]
        have hparse : parse content.trim = none := by tauto
        rw [hparse]
        exact ⟨rfl, rfl⟩

/-- C4 (witness): a missing store file, with a parser that always fails,
heals to the empty store and writes the empty serialization back. -/
theorem loadStore_self_heals_witness :
    (loadStore (fun _ => none) (fun _ => "EMPTY") { content := none }).1 = emptyStore ∧
    (loadStore (fun _ => none) (fun _ => "EMPTY") { content := none }).2.content =
      some "EMPTY" :=
  loadStore_self_heals (fun _ => none) (fun _ => "EMPTY") { content := none } trivial

/-! ## External service calls

The OpenAI client is the black-box Embedding/Completion Service; a route's
outbound calls are recorded as a trace.  The numeric results are supplied
by function parameters (`embedQ`, `embed`, `score`), since the service and
its float vectors are external to the repository. -/

/-- One outbound Embedding/Completion Service call. -/
inductive SvcCall where
  /-- `openai.embeddings.create` on the question (ask route). -/
  | embedQuery (q : String)
  /-- one batched `openai.embeddings.create` inside `embedTexts`. -/
  | embedBatch (texts : List JStr)
  /-- `openai.chat.completions.create` of the ask route, prompt built from
  the ranked top items. -/
  | completionAsk (top : List ScoredItem)
  /-- `openai.chat.completions.create` on an assembled document text
  (summarize / flashcards). -/
  | completionText (content : JStr)
deriving DecidableEq

/-- `texts.slice(i, i + batchSize)` for `i = 0, batchSize, ...`: the batches
of `embedTexts` (fuel = list length bounds the loop). -/
def splitEveryAux (n : Nat) : Nat → List α → List (List α)
  | 0, _ => []
  | _, [] => []
  | fuel + 1, l => l.take n :: splitEveryAux n fuel (l.drop n)

def splitEvery (n : Nat) (l : List α) : List (List α) :=
  splitEveryAux n l.length l

/-- `embedTexts(texts, batchSize)` (lines 210–219): no call on an empty
input; otherwise one service call per batch of 64, outputs concatenated in
order (vector *i* corresponds to text *i*). -/
def embedTexts (embed : JStr → List ℚ) (texts : List JStr) :
    List (List ℚ) × List SvcCall :=
  if texts = [] then ([], [])
  else (texts.map embed, (splitEvery EMBEDDING_BATCH_SIZE texts).map .embedBatch)

/-! ## `/api/ask` route (lines 304–356) -/

/-- The responses of `/api/ask`. -/
inductive AskResp where
  /-- 400 `Missing question`. -/
  | missingQuestion
  /-- 400 `No docs available. Upload first.` — the spec's `NoDocumentsInScope`. -/
  | noDocsInScope
  /-- 200 with the answer and the label-aligned citations. -/
  | ok (answer : String) (citations : List ScoredItem)
deriving DecidableEq

/-- HTTP status of an ask response. -/
def AskResp.status : AskResp → Nat
  | .missingQuestion => 400
  | .noDocsInScope => 400
  | .ok _ _ => 200

/-- `/api/ask`: resolve scope → fairness cap → embed question → embed
chunks → score → stable sort descending → top-k → completion.  `_apiKey`
mirrors `process.env.OPENAI_API_KEY`: the handler has it in scope but never
consults it.  `question = none` models a missing / non-string question;
`docIds = none` a missing / non-array `docIds`. -/
def askRoute (_apiKey : Option String) (embedQ : String → List ℚ)
    (embed : JStr → List ℚ) (score : List ℚ → List ℚ → ℚ)
    (complete : List ScoredItem → String) (store : Store)
    (question : Option String) (docIds : Option (List String)) (k : Nat) :
    AskResp × List SvcCall :=
  match question with
  | none => (.missingQuestion, [])
  | some q =>
    let scopeDocs := match docIds with
      | some ids =>
        if ids = [] then store.docs
        else store.docs.filter fun d => decide (d.id ∈ ids)
      | none => store.docs
    if scopeDocs = [] then (.noDocsInScope, [])
    else
      let packs := limitScopeChunks scopeDocs MAX_CHUNKS_FOR_ASK
      let all := (packs.map fun p => p.2.map fun ch =>
        ({ docId := p.1.id, name := p.1.name, chunkId := ch.id, text := ch.text,
           score := 0 } : ScoredItem)).flatten
      let qv := embedQ q
      let ec := embedTexts embed (all.map (·.text))
      let scored := (all.zip ec.1).map fun it => { it.1 with score := score qv it.2 }
      let top := askTop scored k
      (.ok (complete top) top, .embedQuery q :: ec.2 ++ [.completionAsk top])

/-- C5: an ask request whose `docIds` reference only documents absent from
the store resolves to an empty scope, fails with the 400
`NoDocumentsInScope` response, and attempts no Embedding or Completion
Service call (empty call trace). -/
theorem ask_empty_scope_fails_fast (apiKey : Option String)
    (embedQ : String → List ℚ) (embed : JStr → List ℚ)
    (score : List ℚ → List ℚ → ℚ) (complete : List ScoredItem → String)
    (store : Store) (q : String) (ids : List String) (k : Nat)
    (hne : ids ≠ []) (hout : ∀ d ∈ store.docs, d.id ∉ ids) :
    askRoute apiKey embedQ embed score complete store (some q) (some ids) k =
      (.noDocsInScope, []) ∧
    (askRoute apiKey embedQ embed score complete store (some q) (some ids) k).1.status
      = 400 := by
  have hfilter : store.docs.filter (fun d => decide (d.id ∈ ids)) = [] := by
    rw [List.filter_eq_nil_iff]
    intro d hd
    simpa using hout d hd
  have : askRoute apiKey embedQ embed score complete store (some q) (some ids) k =
      (.noDocsInScope, []) := by
    unfold askRoute
    simp [if_neg hne, hfilter]
  exact ⟨this, by rw [this]; rfl⟩

/-- C5 (witness): a store holding only document `"a"`, asked with
`docIds = ["zz"]`, fails with `NoDocumentsInScope` and an empty call trace. -/
theorem ask_empty_scope_fails_fast_witness :
    askRoute none (fun _ => []) (fun _ => []) (fun _ _ => 0) (fun _ => "")
        { docs := [docWithChunks "a" 1] } (some "hi") (some ["zz"]) 6 =
      (.noDocsInScope, []) ∧
    (askRoute none (fun _ => []) (fun _ => []) (fun _ _ => 0) (fun _ => "")
        { docs := [docWithChunks "a" 1] } (some "hi") (some ["zz"]) 6).1.status
      = 400 :=
  ask_empty_scope_fails_fast none (fun _ => []) (fun _ => []) (fun _ _ => 0)
    (fun _ => "") { docs := [docWithChunks "a" 1] } "hi" ["zz"] 6
    (by decide) (by decide)

/-! ## `/api/upload` route (lines 244–301) -/

/-- What `extractFileToChunks` does for one uploaded file. -/
inductive ExtractOutcome where
  /-- extraction succeeded with these chunk texts. -/
  | ok (chunks : List JStr)
  /-- extraction threw (unsupported type, converter error, …). -/
  | extractFail
  /-- extraction threw with `err.code === 'PDFTOTEXT_MISSING'`. -/
  | pdftotextMissing
deriving DecidableEq

/-- One uploaded file; multer has already written it to temp path `path`. -/
structure UploadFile where
  path : Nat
  originalname : String
  outcome : ExtractOutcome
deriving DecidableEq

/-- The responses of the upload handler (multer-level errors aside). -/
inductive UploadResp where
  /-- 400 `Missing OPENAI_API_KEY on server`. -/
  | missingKey
  /-- 400 `No files uploaded`. -/
  | noFiles
  /-- 501 `PDFTOTEXT_MISSING` with the remediation hint. -/
  | pdftotextMissingResp
  /-- 200 `{ uploaded: [{id, name, chunkCount}, ...] }` (name, chunkCount). -/
  | okUploaded (uploaded : List (String × Nat))
deriving DecidableEq

/-- `fs.unlinkSync(p)`: the temp directory is modelled as the list of
present paths. -/
def unlinkTmp (tmp : List Nat) (p : Nat) : List Nat := tmp.filter fun q => q != p

/-- The per-file loop of the upload handler (lines 260–292): extract; on
`PDFTOTEXT_MISSING` abort the whole request (the `finally` still removes
the current file's temp path, later files are left untouched); on any
other extraction failure skip the file; always unlink the processed
file's temp path; skip empty chunk lists; otherwise append the document.
`uuid n` stands for the external `uuidv4()` of the n-th created document;
`"t0"` for `new Date().toISOString()`. -/
def uploadLoop (uuid : Nat → String) :
    List UploadFile → List Nat → List Doc → List Doc × List Nat × Bool
  | [], tmp, docs => (docs, tmp, false)
  | f :: rest, tmp, docs =>
    match f.outcome with
    | .pdftotextMissing => (docs, unlinkTmp tmp f.path, true)
    | .extractFail => uploadLoop uuid rest (unlinkTmp tmp f.path) docs
    | .ok chunks =>
      if chunks = [] then uploadLoop uuid rest (unlinkTmp tmp f.path) docs
      else
        uploadLoop uuid rest (unlinkTmp tmp f.path) (docs ++
          [{ id := uuid docs.length, name := f.originalname, createdAt := "t0",
             chunkCount := chunks.length,
             chunks := chunks.enum.map fun it => { id := it.1, text := it.2 } }])

/-- `/api/upload`: multer has written every file to its temp path
(`files.map (·.path)`); the handler checks the API key, requires at least
one file, runs the per-file loop, and persists the store unless the loop
aborted with the 501. -/
def uploadRoute (uuid : Nat → String) (apiKey : Option String)
    (files : List UploadFile) (store : Store) :
    UploadResp × List Nat × Store :=
  let tmp := files.map (·.path)
  match apiKey with
  | none => (.missingKey, tmp, store)
  | some _ =>
    if files = [] then (.noFiles, tmp, store)
    else
      let r := uploadLoop uuid files tmp []
      if r.2.2 then (.pdftotextMissingResp, r.2.1, store)
      else (.okUploaded (r.1.map fun d => (d.name, d.chunkCount)), r.2.1,
            { docs := store.docs ++ r.1 })

/-- The temp paths the upload loop unlinks: every file it processes, up to
and including one that aborts with `PDFTOTEXT_MISSING`. -/
def processedPaths : List UploadFile → List Nat
  | [] => []
  | f :: rest =>
    match f.outcome with
    | .pdftotextMissing => [f.path]
    | .extractFail => f.path :: processedPaths rest
    | .ok _ => f.path :: processedPaths rest

theorem mem_uploadLoop_tmp (uuid : Nat → String) :
    ∀ (files : List UploadFile) (tmp : List Nat) (docs : List Doc) (q : Nat),
    q ∈ (uploadLoop uuid files tmp docs).2.1 ↔ q ∈ tmp ∧ q ∉ processedPaths files := by
  intro files
  induction files with
  | nil => intro tmp docs q; simp [uploadLoop, processedPaths]
  | cons f rest ih =>
    intro tmp docs q
    obtain ⟨p, nm, o⟩ := f
    cases o with
    | pdftotextMissing =>
      simp [uploadLoop, processedPaths, unlinkTmp, List.mem_filter]
      try tauto
    | extractFail =>
      simp [uploadLoop, processedPaths, unlinkTmp, List.mem_filter, ih]
      try tauto
    | ok chunks =>
      by_cases hc : chunks = [] <;>
        · simp [uploadLoop, hc, processedPaths, unlinkTmp, List.mem_filter, ih]
          try tauto

theorem uploadRoute_tmp_eq (uuid : Nat → String) (key : String)
    (files : List UploadFile) (store : Store) (hne : files ≠ []) :
    (uploadRoute uuid (some key) files store).2.1 =
      (uploadLoop uuid files (files.map (·.path)) []).2.1 := by
  simp only [uploadRoute]
  rw [if_neg hne]
  split <;> rfl

theorem processedPaths_of_clean (files : List UploadFile)
    (h : ∀ g ∈ files, g.outcome ≠ ExtractOutcome.pdftotextMissing) :
    processedPaths files = files.map (·.path) := by
  induction files with
  | nil => rfl
  | cons f rest ih =>
    have hf := h f (by simp)
    cases ho : f.outcome with
    | pdftotextMissing => exact absurd ho hf
    | extractFail =>
      simp only [processedPaths, ho, List.map_cons]
      rw [ih fun g hg => h g (by simp [hg])]
    | ok chunks =>
      simp only [processedPaths, ho, List.map_cons]
      rw [ih fun g hg => h g (by simp [hg])]

theorem processedPaths_of_abort (pre : List UploadFile) (bad : UploadFile)
    (post : List UploadFile)
    (hpre : ∀ g ∈ pre, g.outcome ≠ ExtractOutcome.pdftotextMissing)
    (hbad : bad.outcome = ExtractOutcome.pdftotextMissing) :
    processedPaths (pre ++ bad :: post) = pre.map (·.path) ++ [bad.path] := by
  induction pre with
  | nil => simp [processedPaths, hbad]
  | cons f rest ih =>
    have hf := hpre f (by simp)
    cases ho : f.outcome with
    | pdftotextMissing => exact absurd ho hf
    | extractFail =>
      simp only [List.cons_append, processedPaths, ho, List.map_cons, List.append_eq]
      rw [ih fun g hg => hpre g (by simp [hg])]
    | ok chunks =>
      simp only [List.cons_append, processedPaths, ho, List.map_cons, List.append_eq]
      rw [ih fun g hg => hpre g (by simp [hg])]

/-- C6 (amended): every file the upload loop processes has its temp file
removed — success, per-file extraction failure, and the file whose
`PDFTOTEXT_MISSING` aborts the request — so when no abort occurs no
original upload artifact is retained; but on an abort the temp files of
the not-yet-processed files after the aborting one are retained. -/
theorem upload_tmpfile_cleanup (uuid : Nat → String) (key : String)
    (files : List UploadFile) (store : Store) :
    ((∀ g ∈ files, g.outcome ≠ ExtractOutcome.pdftotextMissing) →
      ∀ f ∈ files, f.path ∉ (uploadRoute uuid (some key) files store).2.1) ∧
    (∀ pre bad post, files = pre ++ bad :: post →
      (∀ g ∈ pre, g.outcome ≠ ExtractOutcome.pdftotextMissing) →
      bad.outcome = ExtractOutcome.pdftotextMissing →
      (∀ f ∈ pre, f.path ∉ (uploadRoute uuid (some key) files store).2.1) ∧
      bad.path ∉ (uploadRoute uuid (some key) files store).2.1 ∧
      (∀ f ∈ post, f.path ∉ pre.map (·.path) → f.path ≠ bad.path →
        f.path ∈ (uploadRoute uuid (some key) files store).2.1)) := by
  constructor
  · intro hclean f hf
    have hne : files ≠ [] := List.ne_nil_of_mem hf
    rw [uploadRoute_tmp_eq uuid key files store hne, mem_uploadLoop_tmp,
      processedPaths_of_clean files hclean]
    intro hmem
    exact hmem.2 (List.mem_map_of_mem _ hf)
  · intro pre bad post hsplit hpre hbad
    subst hsplit
    have hne : pre ++ bad :: post ≠ [] := by simp
    have hproc := processedPaths_of_abort pre bad post hpre hbad
    rw [uploadRoute_tmp_eq uuid key _ store hne]
    refine ⟨?_, ?_, ?_⟩
    · intro f hf
      rw [mem_uploadLoop_tmp, hproc]
      intro hmem
      exact hmem.2 (by simp [List.mem_map_of_mem _ hf])
    · rw [mem_uploadLoop_tmp, hproc]
      intro hmem
      exact hmem.2 (by simp)
    · intro f hf hnotpre hnotbad
      rw [mem_uploadLoop_tmp, hproc]
      refine ⟨List.mem_map_of_mem _
        (List.mem_append_right _ (List.mem_cons_of_mem _ hf)), ?_⟩
      simp only [List.mem_append, List.mem_singleton]
      rintro (hin | hin)
      · exact hnotpre hin
      · exact hnotbad hin

/-- An uploaded file fixture. -/
def upFile (p : Nat) (nm : String) (o : ExtractOutcome) : UploadFile :=
  { path := p, originalname := nm, outcome := o }

/-- Three uploads whose second aborts the request with `PDFTOTEXT_MISSING`. -/
def filesAbortDemo : List UploadFile :=
  [upFile 1 "a.txt" (.ok [['h']]), upFile 2 "b.pdf" .pdftotextMissing,
   upFile 3 "c.txt" (.ok [['h']])]

/-- C6 (counterexample): with `pdftotext` missing on the second of three
uploaded files, the request aborts there and the third file's temp
artifact (path 3) is retained, contrary to the claim that the temporary
file is removed in all cases. -/
theorem upload_tmpfile_counterexample :
    ¬ (∀ f ∈ filesAbortDemo,
        f.path ∉ (uploadRoute (fun _ => "u") (some "k") filesAbortDemo
          emptyStore).2.1) := by
  decide

/-- C6 (witness): on the three-file abort fixture, the successfully
processed first file and the aborting second file have their temp files
removed, while the unprocessed third file's temp file remains. -/
theorem upload_tmpfile_cleanup_witness :
    (∀ f ∈ [upFile 1 "a.txt" (.ok [['h']])],
      f.path ∉ (uploadRoute (fun _ => "u") (some "k") filesAbortDemo
        emptyStore).2.1) ∧
    (upFile 2 "b.pdf" .pdftotextMissing).path ∉
      (uploadRoute (fun _ => "u") (some "k") filesAbortDemo emptyStore).2.1 ∧
    (∀ f ∈ [upFile 3 "c.txt" (.ok [['h']])],
      f.path ∉ ([upFile 1 "a.txt" (.ok [['h']])]).map (·.path) →
      f.path ≠ (upFile 2 "b.pdf" .pdftotextMissing).path →
      f.path ∈ (uploadRoute (fun _ => "u") (some "k") filesAbortDemo
        emptyStore).2.1) :=
  (upload_tmpfile_cleanup (fun _ => "u") "k" filesAbortDemo emptyStore).2
    [upFile 1 "a.txt" (.ok [['h']])] (upFile 2 "b.pdf" .pdftotextMissing)
    [upFile 3 "c.txt" (.ok [['h']])] rfl (by decide) rfl

/-! ## Document delete route (C7)

The server-side `DELETE /api/docs/:id` handler is not among the
repository's source files; only the client caller `ApiService.deleteDoc`
and the spec describe it. -/

/-- Responses of the delete route. -/
inductive DeleteResp where
  | okDeleted
  | notFound
deriving DecidableEq

/-- Modelled from the spec: the server-side delete route is missing from
the sources (the client `ApiService.deleteDoc` issues
`DELETE /api/docs/:id`).  Spec §6: "Delete document: removes a document and
its chunks; idempotent on a missing id (report not-found rather than
crash)." -/
def deleteDocRoute (store : Store) (docId : String) : DeleteResp × Store :=
  if store.docs.any (fun d => d.id == docId) then
    (.okDeleted, { docs := store.docs.filter fun d => d.id != docId })
  else (.notFound, store)

/-- C7: deleting a document removes it — and with it all of its chunks,
which only exist inside the document — from the store; afterwards the id is
absent, so a repeated delete of the same id reports not-found on the
unchanged store rather than crashing, and a delete of an id that was never
stored reports not-found and leaves the store unchanged. -/
theorem deleteDoc_removes_and_repeat_not_found (store : Store) (docId : String) :
    (∀ d ∈ (deleteDocRoute store docId).2.docs, d.id ≠ docId) ∧
    deleteDocRoute (deleteDocRoute store docId).2 docId =
      (.notFound, (deleteDocRoute store docId).2) ∧
    ((∀ d ∈ store.docs, d.id ≠ docId) →
      deleteDocRoute store docId = (.notFound, store)) := by
  have habs : ∀ s : Store, (∀ d ∈ s.docs, d.id ≠ docId) →
      deleteDocRoute s docId = (.notFound, s) := by
    intro s hs
    unfold deleteDocRoute
    have hany : ¬ (s.docs.any (fun d => d.id == docId) = true) := by
      simp only [List.any_eq_true, beq_iff_eq]
      rintro ⟨d, hd, heq⟩
      exact hs d hd heq
    rw [if_neg hany]
  have hclean : ∀ d ∈ (deleteDocRoute store docId).2.docs, d.id ≠ docId := by
    unfold deleteDocRoute
    by_cases h : store.docs.any (fun d => d.id == docId) = true
    · rw [if_pos h]
      intro d hd
      have := (List.mem_filter.mp hd).2
      simpa [bne_iff_ne] using this
    · rw [if_neg h]
      intro d hd
      simp only [List.any_eq_true, beq_iff_eq] at h
      exact fun heq => h ⟨d, hd, heq⟩
  exact ⟨hclean, habs _ hclean, habs store⟩

/-- C7 (witness): deleting an id that is not in a one-document store
reports not-found and leaves the store unchanged. -/
theorem deleteDoc_not_found_witness :
    deleteDocRoute { docs := [docWithChunks "a" 1] } "zz" =
      (.notFound, { docs := [docWithChunks "a" 1] }) :=
  (deleteDoc_removes_and_repeat_not_found { docs := [docWithChunks "a" 1] }
    "zz").2.2 (by decide)

/-! ## `/api/summarize` route (lines 359–391) -/

/-- Default character ceiling of the summarize route (`maxChars = 100_000`). -/
def SUMMARIZE_DEFAULT_MAX_CHARS : Nat := 100000

/-- The prompt-assembly loop of `/api/summarize` (lines 369–374): stop once
`text.length ≥ maxChars`; otherwise append a `"\n\n"` separator (when text
is non-empty) and the next chunk truncated to the remaining budget. -/
def buildSummaryGo (maxChars : Nat) : List Chunk → JStr → JStr
  | [], text => text
  | ch :: rest, text =>
    if maxChars ≤ text.length then text
    else
      buildSummaryGo maxChars rest
        (text ++ (if text = [] then [] else ['\n', '\n']) ++
          ch.text.take (maxChars - text.length))

/-- The text `/api/summarize` assembles and sends to the Completion
Service. -/
def buildSummaryText (chunks : List Chunk) (maxChars : Nat) : JStr :=
  buildSummaryGo maxChars chunks []

/-- The responses of `/api/summarize`. -/
inductive SummResp where
  /-- 400 `Missing docId`. -/
  | missingDocId
  /-- 404 `Doc not found`. -/
  | docNotFound
  /-- 400 `Document is empty` — the spec's `EmptyDocument`. -/
  | emptyDocument
  /-- 200 with the completion's summary. -/
  | okSummary (summary : String)
deriving DecidableEq

/-- `/api/summarize`: find the document, assemble the bounded text, fail
with `EmptyDocument` when nothing survives, otherwise call the Completion
Service on the assembled text. -/
def summarizeRoute (complete : JStr → String) (store : Store)
    (docId : Option String) (maxChars : Nat) : SummResp × List SvcCall :=
  match docId with
  | none => (.missingDocId, [])
  | some id =>
    match store.docs.find? (fun d => d.id == id) with
    | none => (.docNotFound, [])
    | some doc =>
      let text := buildSummaryText doc.chunks maxChars
      if text = [] then (.emptyDocument, [])
      else (.okSummary (complete text), [.completionText text])

theorem buildSummaryGo_length (maxChars : Nat) :
    ∀ (chunks : List Chunk) (text : JStr), text.length ≤ maxChars + 2 →
    (buildSummaryGo maxChars chunks text).length ≤ maxChars + 2 := by
  intro chunks
  induction chunks with
  | nil => intro text h; simpa [buildSummaryGo] using h
  | cons ch rest ih =>
    intro text h
    by_cases hb : maxChars ≤ text.length
    · simpa [buildSummaryGo, hb] using h
    · have ht : (ch.text.take (maxChars - text.length)).length ≤
          maxChars - text.length := by
        simp [List.length_take]
      have hlen : (text ++ (if text = [] then [] else ['\n', '\n']) ++
          ch.text.take (maxChars - text.length)).length ≤ maxChars + 2 := by
        by_cases he : text = [] <;> (simp [he, List.length_append]; try omega)
      simpa [buildSummaryGo, hb] using ih _ hlen

/-- C8 (amended): for every stored document, `/api/summarize` sends to the
Completion Service exactly the in-order assembly of the document's chunks,
each truncated to the remaining budget and joined by a two-character
`"\n\n"` separator; the assembled text's length is at most `maxChars + 2`
(the final separator is not counted against the budget, so the claimed
`maxChars` ceiling can be exceeded by up to 2), and when no text survives
the call fails with the 400 `EmptyDocument` error and no Completion call
is made. -/
theorem summarize_sends_bounded_assembly (complete : JStr → String)
    (store : Store) (id : String) (doc : Doc) (maxChars : Nat)
    (hfind : store.docs.find? (fun d => d.id == id) = some doc) :
    (buildSummaryText doc.chunks maxChars).length ≤ maxChars + 2 ∧
    (buildSummaryText doc.chunks maxChars = [] →
      summarizeRoute complete store (some id) maxChars = (.emptyDocument, [])) ∧
    (buildSummaryText doc.chunks maxChars ≠ [] →
      summarizeRoute complete store (some id) maxChars =
        (.okSummary (complete (buildSummaryText doc.chunks maxChars)),
         [.completionText (buildSummaryText doc.chunks maxChars)])) := by
  refine ⟨buildSummaryGo_length maxChars doc.chunks [] (by simp), ?_, ?_⟩
  · intro he
    simp [summarizeRoute, hfind, he]
  · intro hne
    simp [summarizeRoute, hfind, if_neg hne]

/-- A two-chunk document (`"ab"`, `"cd"`) for the summarize fixtures. -/
def docAB : Doc :=
  { id := "d8", name := "n", createdAt := "t0", chunkCount := 2,
    chunks := [{ id := 0, text := ['a', 'b'] }, { id := 1, text := ['c', 'd'] }] }

/-- C8 (counterexample): with `maxChars = 3` and chunks `"ab"`, `"cd"`, the
`"\n\n"` separator is not counted against the remaining budget: the route
sends the 5-character text `"ab\n\nc"`, exceeding the claimed `maxChars`
ceiling of 3. -/
theorem summarize_ceiling_counterexample :
    (summarizeRoute (fun _ => "s") { docs := [docAB] } (some "d8") 3).2 =
      [.completionText ['a', 'b', '\n', '\n', 'c']] ∧
    ¬ ((['a', 'b', '\n', '\n', 'c'] : JStr).length ≤ 3) := by
  decide

/-- C8 (witness): on the concrete two-chunk document with `maxChars = 3`,
the assembled text obeys the `maxChars + 2` bound and the route sends
exactly that text to the Completion Service. -/
theorem summarize_sends_bounded_assembly_witness :
    (buildSummaryText docAB.chunks 3).length ≤ 3 + 2 ∧
    summarizeRoute (fun _ => "s") { docs := [docAB] } (some "d8") 3 =
      (.okSummary "s", [.completionText (buildSummaryText docAB.chunks 3)]) :=
  ⟨(summarize_sends_bounded_assembly (fun _ => "s") { docs := [docAB] } "d8"
      docAB 3 (by decide)).1,
   (summarize_sends_bounded_assembly (fun _ => "s") { docs := [docAB] } "d8"
      docAB 3 (by decide)).2.2 (by decide)⟩

/-! ## `/api/flashcards` route (lines 393–440) -/

/-- The responses of `/api/flashcards`. -/
inductive FlashResp where
  /-- 400 `docId is required`. -/
  | missingDocId
  /-- 404 `Document not found`. -/
  | docNotFound
  /-- 500 `Invalid JSON returned by model`. -/
  | invalidJson
  /-- 200 with the parsed question/answer cards (`data.flashcards || []`). -/
  | okFlashcards (cards : List (String × String))
deriving DecidableEq

/-- `/api/flashcards`: find the document, join its chunk texts with
`"\n\n"`, truncate to 12,000 characters, call the Completion Service and
strictly parse its JSON reply (`parse` is the runtime `JSON.parse` plus the
`flashcards` field lookup; `none` = parse failure, `some none` = no
`flashcards` field).  `_apiKey` mirrors `process.env.OPENAI_API_KEY`: the
handler never consults it; `_count` only shapes the system prompt. -/
def flashcardsRoute (_apiKey : Option String) (complete : JStr → String)
    (parse : String → Option (Option (List (String × String))))
    (store : Store) (docId : Option String) (_count : Nat) :
    FlashResp × List SvcCall :=
  match docId with
  | none => (.missingDocId, [])
  | some id =>
    match store.docs.find? (fun d => d.id == id) with
    | none => (.docNotFound, [])
    | some doc =>
      let truncated := (List.intercalate ['\n', '\n']
        (doc.chunks.map (·.text))).take 12000
      match parse (complete truncated) with
      | none => (.invalidJson, [.completionText truncated])
      | some cards => (.okFlashcards (cards.getD []), [.completionText truncated])

/-! ## API-key handling (lines 252–255; the ask-family routes have no check) -/

/-- `/api/summarize` as invoked with the server environment: the handler
body never consults `process.env.OPENAI_API_KEY` (there is no check before
the Completion call), so the credential is ignored. -/
def summarizeRouteEnv (_apiKey : Option String) (complete : JStr → String)
    (store : Store) (docId : Option String) (maxChars : Nat) :
    SummResp × List SvcCall :=
  summarizeRoute complete store docId maxChars

/-- C9 (counterexample): with the OPENAI_API_KEY absent (`none`), the
`/api/ask` handler does not fail fast: on a one-document store it still
attempts the Embedding Service call on the question. -/
theorem ask_missing_key_counterexample :
    SvcCall.embedQuery "hi" ∈
      (askRoute none (fun _ => [0]) (fun _ => [0]) (fun _ _ => 0) (fun _ => "")
        { docs := [docWithChunks "a" 1] } (some "hi") none 6).2 := by
  decide

/-- C9 (amended): when the service credential is absent, the upload route
fails fast with the descriptive `Missing OPENAI_API_KEY` 400 error, leaving
temp files and store untouched (and the upload handler performs no service
call at all); the ask-family handlers, however, perform no credential
check: regardless of the (absent) key, `/api/ask` attempts the Embedding
Service call whenever its scope is non-empty, `/api/summarize` attempts the
Completion call whenever the assembled text is non-empty, and
`/api/flashcards` attempts the Completion call for every stored document. -/
theorem upload_fails_fast_ask_attempts_call :
    (∀ (uuid : Nat → String) (files : List UploadFile) (store : Store),
      uploadRoute uuid none files store =
        (.missingKey, files.map (·.path), store)) ∧
    (∀ (apiKey : Option String) (embedQ : String → List ℚ)
        (embed : JStr → List ℚ) (score : List ℚ → List ℚ → ℚ)
        (complete : List ScoredItem → String) (store : Store) (q : String)
        (k : Nat), store.docs ≠ [] →
      (askRoute apiKey embedQ embed score complete store (some q) none k).2
        ≠ []) ∧
    (∀ (apiKey : Option String) (complete : JStr → String) (store : Store)
        (id : String) (doc : Doc) (maxChars : Nat),
      store.docs.find? (fun d => d.id == id) = some doc →
      buildSummaryText doc.chunks maxChars ≠ [] →
      (summarizeRouteEnv apiKey complete store (some id) maxChars).2 ≠ []) ∧
    (∀ (apiKey : Option String) (complete : JStr → String)
        (parse : String → Option (Option (List (String × String))))
        (store : Store) (id : String) (doc : Doc) (count : Nat),
      store.docs.find? (fun d => d.id == id) = some doc →
      (flashcardsRoute apiKey complete parse store (some id) count).2 ≠ []) := by
  refine ⟨fun uuid files store => rfl, ?_, ?_, ?_⟩
  · intro apiKey embedQ embed score complete store q k h
    simp only [askRoute]
    rw [if_neg h]
    simp
  · intro apiKey complete store id doc maxChars hfind hne
    simp only [summarizeRouteEnv, summarizeRoute, hfind]
    rw [if_neg hne]
    simp
  · intro apiKey complete parse store id doc count hfind
    simp only [flashcardsRoute, hfind]
    cases parse (complete ((List.intercalate ['\n', '\n']
        (doc.chunks.map (·.text))).take 12000)) <;> simp

/-- C9 (witness): concrete keyless instances — a missing-key upload of one
file is rejected with `missingKey`; keyless ask, summarize and flashcards
calls on one-document stores still produce non-empty service-call traces. -/
theorem upload_fails_fast_ask_attempts_call_witness :
    uploadRoute (fun _ => "u") none [upFile 1 "a.txt" (.ok [['h']])] emptyStore =
      (.missingKey, [1], emptyStore) ∧
    (askRoute none (fun _ => [0]) (fun _ => [0]) (fun _ _ => 0) (fun _ => "")
      { docs := [docWithChunks "a" 1] } (some "hi") none 6).2 ≠ [] ∧
    (summarizeRouteEnv none (fun _ => "s") { docs := [docAB] } (some "d8") 3).2
      ≠ [] ∧
    (flashcardsRoute none (fun _ => "j") (fun _ => none) { docs := [docAB] }
      (some "d8") 10).2 ≠ [] :=
  ⟨upload_fails_fast_ask_attempts_call.1 (fun _ => "u")
      [upFile 1 "a.txt" (.ok [['h']])] emptyStore,
   upload_fails_fast_ask_attempts_call.2.1 none (fun _ => [0]) (fun _ => [0])
      (fun _ _ => 0) (fun _ => "") { docs := [docWithChunks "a" 1] } "hi" 6
      (by decide),
   upload_fails_fast_ask_attempts_call.2.2.1 none (fun _ => "s")
      { docs := [docAB] } "d8" docAB 3 (by decide) (by decide),
   upload_fails_fast_ask_attempts_call.2.2.2 none (fun _ => "j")
      (fun _ => none) { docs := [docAB] } "d8" docAB 10 (by decide)⟩

/-! ## Streaming chunker (lines 89–147)

`pushChunksFromBuffer` is a `while` loop; it is embedded fuel-bounded, with
any fuel at least the iteration count giving the loop's fixed point — each
iteration drops `W − overlap = 2800 ≥ 1` characters, so `buffer.length`
iterations always suffice.  The `'data'` events of the stream feed the same
accumulator, and the emitted chunks depend only on the accumulated text, so
the txt path is modelled by a single data event carrying the whole decoded
content, followed by the `'close'` flush. -/

/-- `s.trim()` on a JS string: strip whitespace from both ends. -/
def jsTrim (s : JStr) : JStr :=
  ((s.dropWhile Char.isWhitespace).reverse.dropWhile Char.isWhitespace).reverse

/-- `chunk.replace(/\r\n/g, '\n')`: collapse CRLF pairs left to right. -/
def normalizeCRLF : JStr → JStr
  | [] => []
  | [c] => [c]
  | c1 :: c2 :: rest =>
    if c1 = '\r' ∧ c2 = '\n' then '\n' :: normalizeCRLF rest
    else c1 :: normalizeCRLF (c2 :: rest)

/-- The `while` loop of `pushChunksFromBuffer` (lines 90–96): while the
buffer holds a full window and the per-document cap is not reached, emit
the trimmed window (dropped if blank) and keep the overlapping rest. -/
def pushChunks (fuel : Nat) (chunks : List JStr) (buffer : JStr) :
    List JStr × JStr :=
  match fuel with
  | 0 => (chunks, buffer)
  | fuel + 1 =>
    if MAX_CHARS_PER_CHUNK ≤ buffer.length ∧ chunks.length < MAX_CHUNKS_PER_DOC then
      pushChunks fuel
        (if jsTrim (buffer.take MAX_CHARS_PER_CHUNK) = [] then chunks
         else chunks ++ [jsTrim (buffer.take MAX_CHARS_PER_CHUNK)])
        (buffer.drop (MAX_CHARS_PER_CHUNK - CHUNK_OVERLAP))
    else (chunks, buffer)

/-- `pushChunksFromBuffer(chunks, buffer)` with sufficient fuel. -/
def pushChunksFromBuffer (chunks : List JStr) (buffer : JStr) :
    List JStr × JStr :=
  pushChunks buffer.length chunks buffer

theorem pushChunksFromBuffer_eq (chunks : List JStr) (buffer : JStr) :
    pushChunksFromBuffer chunks buffer = pushChunks buffer.length chunks buffer :=
  rfl

/-- `streamReadableToChunks` on the txt path (lines 98–141), the content
delivered as one data event: normalize CRLF, cap at `MAX_TEXT_PER_FILE`,
run the chunk loop; unless the stream was destroyed early (cap reached),
the `'close'` handler flushes the trimmed remainder as a final chunk. -/
def streamReadableToChunks (content : JStr) : List JStr :=
  let piece := (normalizeCRLF content).take MAX_TEXT_PER_FILE
  let r := pushChunksFromBuffer [] piece
  if MAX_CHUNKS_PER_DOC ≤ r.1.length ∨ MAX_TEXT_PER_FILE ≤ piece.length then r.1
  else if jsTrim r.2 ≠ [] ∧ r.1.length < MAX_CHUNKS_PER_DOC then
    r.1 ++ [jsTrim r.2]
  else r.1

/-- The document the upload route builds from one extracted txt file
(lines 280–288): no document when no chunks survived; otherwise
`chunkCount = chunks.length` and ids are the 0-based emission order. -/
def txtUploadDoc (uuid name : String) (content : JStr) : Option Doc :=
  let cs := streamReadableToChunks content
  if cs = [] then none
  else some { id := uuid, name := name, createdAt := "t0",
              chunkCount := cs.length,
              chunks := cs.enum.map fun it => { id := it.1, text := it.2 } }

/-- No character of the text is whitespace. -/
def wsFree (l : JStr) : Prop := ∀ c ∈ l, c.isWhitespace = false

/-- Untrimmed full windows the loop walks over (same fuel recursion as
`pushChunks`, emission condition only). -/
def windowsOf (fuel : Nat) (buffer : JStr) : List JStr :=
  match fuel with
  | 0 => []
  | fuel + 1 =>
    if MAX_CHARS_PER_CHUNK ≤ buffer.length then
      buffer.take MAX_CHARS_PER_CHUNK ::
        windowsOf fuel (buffer.drop (MAX_CHARS_PER_CHUNK - CHUNK_OVERLAP))
    else []

/-- The accumulator left when the loop stops. -/
def finalBufOf (fuel : Nat) (buffer : JStr) : JStr :=
  match fuel with
  | 0 => buffer
  | fuel + 1 =>
    if MAX_CHARS_PER_CHUNK ≤ buffer.length then
      finalBufOf fuel (buffer.drop (MAX_CHARS_PER_CHUNK - CHUNK_OVERLAP))
    else buffer

/-- Arithmetic mirror of `windowsOf`: the emitted-window count as a
function of the buffer length. -/
def wcount : Nat → Nat → Nat
  | 0, _ => 0
  | fuel + 1, n =>
    if MAX_CHARS_PER_CHUNK ≤ n then
      wcount fuel (n - (MAX_CHARS_PER_CHUNK - CHUNK_OVERLAP)) + 1
    else 0

theorem dropWhile_eq_self_of_head (p : Char → Bool) :
    ∀ l : JStr, (∀ c ∈ l, p c = false) → l.dropWhile p = l
  | [], _ => rfl
  | a :: l, h => by simp [List.dropWhile, h a (by simp)]

theorem jsTrim_eq_self (l : JStr) (h : wsFree l) : jsTrim l = l := by
  unfold jsTrim
  rw [dropWhile_eq_self_of_head _ l h,
    dropWhile_eq_self_of_head _ l.reverse (fun c hc => h c (by simpa using hc)),
    List.reverse_reverse]

theorem jsTrim_eq_nil (l : JStr) (h : ∀ c ∈ l, c.isWhitespace = true) :
    jsTrim l = [] := by
  unfold jsTrim
  rw [List.dropWhile_eq_nil_iff.mpr h]
  simp

theorem normalizeCRLF_eq_self : ∀ l : JStr, (∀ c ∈ l, c ≠ '\r') →
    normalizeCRLF l = l
  | [], _ => rfl
  | [_], _ => rfl
  | c1 :: c2 :: rest, h => by
    rw [normalizeCRLF, if_neg fun hc => h c1 (by simp) hc.1,
      normalizeCRLF_eq_self (c2 :: rest) fun c hc => h c (by simp at hc; simp [hc])]

theorem windowsOf_length (fuel : Nat) : ∀ buffer : JStr,
    (windowsOf fuel buffer).length = wcount fuel buffer.length := by
  induction fuel with
  | zero => intro buffer; rfl
  | succ fuel ih =>
    intro buffer
    by_cases hb : MAX_CHARS_PER_CHUNK ≤ buffer.length <;>
      simp [windowsOf, wcount, hb, ih, List.length_drop]

theorem finalBufOf_eq_drop (fuel : Nat) : ∀ buffer : JStr,
    finalBufOf fuel buffer =
      buffer.drop ((MAX_CHARS_PER_CHUNK - CHUNK_OVERLAP) * wcount fuel buffer.length) := by
  induction fuel with
  | zero => intro buffer; simp [finalBufOf, wcount]
  | succ fuel ih =>
    intro buffer
    by_cases hb : MAX_CHARS_PER_CHUNK ≤ buffer.length
    · rw [finalBufOf, if_pos hb, ih, List.drop_drop]
      rw [wcount, if_pos (by simpa [List.length_drop] using hb)]
      congr 1
      simp [List.length_drop]
      ring
    · rw [finalBufOf, if_neg hb, wcount]
      rw [if_neg (by simpa [List.length_drop] using hb)]
      simp

theorem pushChunks_spec (fuel : Nat) : ∀ (chunks : List JStr) (buffer : JStr),
    wsFree buffer →
    chunks.length + (windowsOf fuel buffer).length ≤ MAX_CHUNKS_PER_DOC →
    pushChunks fuel chunks buffer =
      (chunks ++ windowsOf fuel buffer, finalBufOf fuel buffer) := by
  induction fuel with
  | zero => intro chunks buffer _ _; simp [pushChunks, windowsOf, finalBufOf]
  | succ fuel ih =>
    intro chunks buffer hws hcap
    by_cases hb : MAX_CHARS_PER_CHUNK ≤ buffer.length
    · have hwnd : windowsOf (fuel + 1) buffer =
          buffer.take MAX_CHARS_PER_CHUNK ::
            windowsOf fuel (buffer.drop (MAX_CHARS_PER_CHUNK - CHUNK_OVERLAP)) := by
        rw [windowsOf, if_pos hb]
      rw [hwnd] at hcap
      simp only [List.length_cons] at hcap
      have hlt : chunks.length < MAX_CHUNKS_PER_DOC := by omega
      have hslice : jsTrim (buffer.take MAX_CHARS_PER_CHUNK) =
          buffer.take MAX_CHARS_PER_CHUNK :=
        jsTrim_eq_self _ fun c hc => hws c (List.take_subset _ _ hc)
      have hlen : (buffer.take MAX_CHARS_PER_CHUNK).length = MAX_CHARS_PER_CHUNK := by
        simp [List.length_take]
        omega
      have hne : buffer.take MAX_CHARS_PER_CHUNK ≠ [] := by
        intro h0
        rw [h0] at hlen
        simp [MAX_CHARS_PER_CHUNK] at hlen
      rw [pushChunks, if_pos ⟨hb, hlt⟩, hslice, if_neg hne]
      rw [ih (chunks ++ [buffer.take MAX_CHARS_PER_CHUNK])
        (buffer.drop (MAX_CHARS_PER_CHUNK - CHUNK_OVERLAP))
        (fun c hc => hws c (List.drop_subset _ _ hc))
        (by simp; omega)]
      rw [hwnd, finalBufOf, if_pos hb]
      simp
    · rw [pushChunks, if_neg fun h => hb h.1, windowsOf, if_neg hb, finalBufOf,
        if_neg hb]
      simp

/-- Loop behaviour on all-whitespace text: every window trims to blank, so
nothing is ever pushed. -/
theorem pushChunks_allWs (fuel : Nat) : ∀ (chunks : List JStr) (buffer : JStr),
    (∀ c ∈ buffer, c.isWhitespace = true) →
    chunks.length < MAX_CHUNKS_PER_DOC →
    pushChunks fuel chunks buffer = (chunks, finalBufOf fuel buffer) := by
  induction fuel with
  | zero => intro chunks buffer _ _; rfl
  | succ fuel ih =>
    intro chunks buffer hws hlt
    by_cases hb : MAX_CHARS_PER_CHUNK ≤ buffer.length
    · have hslice : jsTrim (buffer.take MAX_CHARS_PER_CHUNK) = [] :=
        jsTrim_eq_nil _ fun c hc => hws c (List.take_subset _ _ hc)
      rw [pushChunks, if_pos ⟨hb, hlt⟩, hslice, if_pos rfl]
      rw [ih chunks (buffer.drop (MAX_CHARS_PER_CHUNK - CHUNK_OVERLAP))
        (fun c hc => hws c (List.drop_subset _ _ hc)) hlt]
      rw [finalBufOf, if_pos hb]
    · rw [pushChunks, if_neg fun h => hb h.1, finalBufOf, if_neg hb]

/-- C2 (amended): uploading a plain-text file of exactly 50,000
whitespace-free characters (so no CRLF pair is collapsed and no window
trims to blank) with window 3000, overlap 200 and per-document cap 300
produces a document with exactly 18 chunks — `ceil((50000-200)/2800)` —
and a `chunkCount` field equal to 18. -/
theorem txt_upload_50000_yields_18_chunks (uuid name : String) (content : JStr)
    (hlen : content.length = 50000) (hws : wsFree content) :
    ((txtUploadDoc uuid name content).map fun d => (d.chunks.length, d.chunkCount))
      = some (18, 18) := by
  have hnocr : ∀ c ∈ content, c ≠ '\r' := by
    intro c hc heq
    have hfalse := hws c hc
    rw [heq] at hfalse
    exact absurd hfalse (by decide)
  have hnorm : normalizeCRLF content = content := normalizeCRLF_eq_self content hnocr
  have htake : content.take MAX_TEXT_PER_FILE = content :=
    List.take_of_length_le (by rw [hlen]; decide)
  have hwc : wcount 50000 50000 = 17 := by decide
  have hwlen : (windowsOf 50000 content).length = 17 := by
    rw [windowsOf_length, hlen, hwc]
  have hpush : pushChunksFromBuffer [] content =
      (windowsOf 50000 content, finalBufOf 50000 content) := by
    rw [pushChunksFromBuffer_eq, hlen]
    exact pushChunks_spec 50000 [] content hws
      (by rw [windowsOf_length, hlen, hwc]; decide)
  have hfb : finalBufOf 50000 content = content.drop 47600 := by
    rw [finalBufOf_eq_drop, hlen, hwc]
    norm_num [MAX_CHARS_PER_CHUNK, CHUNK_OVERLAP]
  have hfblen : (content.drop 47600).length = 2400 := by
    simp [List.length_drop, hlen]
  have htail : jsTrim (content.drop 47600) = content.drop 47600 :=
    jsTrim_eq_self _ fun c hc => hws c (List.drop_subset _ _ hc)
  have htailne : content.drop 47600 ≠ [] := by
    intro h
    rw [h] at hfblen
    simp at hfblen
  have hnotlong : content.length < MAX_TEXT_PER_FILE := by
    rw [hlen]
    decide
  have hstream : streamReadableToChunks content =
      windowsOf 50000 content ++ [content.drop 47600] := by
    simp only [streamReadableToChunks, hnorm, htake, hpush, hfb, htail, hwlen]
    rw [if_neg (by push_neg; exact ⟨by decide, hnotlong⟩),
      if_pos ⟨htailne, by decide⟩]
  have hcslen : (streamReadableToChunks content).length = 18 := by
    rw [hstream]
    simp [hwlen]
  have hcsne : streamReadableToChunks content ≠ [] := by
    intro h
    rw [h] at hcslen
    simp at hcslen
  simp only [txtUploadDoc]
  rw [if_neg hcsne]
  simp [List.enum_length, hcslen]

/-- C2 (counterexample): a plain-text file of exactly 50,000 characters
that are all spaces yields no document at all — every window and the tail
trim to blank, so zero chunks survive and the upload route skips the file
— refuting the claim for arbitrary 50,000-character files. -/
theorem txt_upload_allws_counterexample :
    (List.replicate 50000 ' ' : JStr).length = 50000 ∧
    txtUploadDoc "u" "a.txt" (List.replicate 50000 ' ') = none := by
  have hlen : (List.replicate 50000 ' ' : JStr).length = 50000 :=
    List.length_replicate _ _
  refine ⟨hlen, ?_⟩
  have hws : ∀ c ∈ (List.replicate 50000 ' ' : JStr), c.isWhitespace = true := by
    intro c hc
    rw [List.eq_of_mem_replicate hc]
    decide
  have hnocr : ∀ c ∈ (List.replicate 50000 ' ' : JStr), c ≠ '\r' := by
    intro c hc
    rw [List.eq_of_mem_replicate hc]
    decide
  have hnorm := normalizeCRLF_eq_self _ hnocr
  have htake : (List.replicate 50000 ' ' : JStr).take MAX_TEXT_PER_FILE =
      List.replicate 50000 ' ' :=
    List.take_of_length_le (by rw [hlen]; decide)
  have hpush : pushChunksFromBuffer [] (List.replicate 50000 ' ') =
      ([], finalBufOf 50000 (List.replicate 50000 ' ')) := by
    rw [pushChunksFromBuffer_eq, hlen]
    exact pushChunks_allWs 50000 [] _ hws (by decide)
  have hwc : wcount 50000 50000 = 17 := by decide
  have hfb : finalBufOf 50000 (List.replicate 50000 ' ') =
      (List.replicate 50000 ' ' : JStr).drop 47600 := by
    have h := finalBufOf_eq_drop 50000 (List.replicate 50000 ' ')
    rw [hlen, hwc] at h
    rw [h]
    norm_num [MAX_CHARS_PER_CHUNK, CHUNK_OVERLAP]
  have htail : jsTrim (finalBufOf 50000 (List.replicate 50000 ' ')) = [] := by
    rw [hfb]
    apply jsTrim_eq_nil
    intro c hc
    exact hws c (List.drop_subset _ _ hc)
  have hnotlong : (List.replicate 50000 ' ' : JStr).length < MAX_TEXT_PER_FILE := by
    rw [hlen]
    decide
  have hstream : streamReadableToChunks (List.replicate 50000 ' ') = [] := by
    simp only [streamReadableToChunks, hnorm, htake, hpush, htail]
    rw [if_neg (by push_neg; exact ⟨by decide, hnotlong⟩),
      if_neg (fun h => h.1 rfl)]
  simp only [txtUploadDoc]
  rw [hstream, if_pos rfl]

/-- C2 (witness): the concrete 50,000-character file of letters `a`
produces a document of 18 chunks with `chunkCount = 18`. -/
theorem txt_upload_50000_yields_18_chunks_witness :
    ((txtUploadDoc "u" "doc.txt" (List.replicate 50000 'a')).map fun d =>
      (d.chunks.length, d.chunkCount)) = some (18, 18) :=
  txt_upload_50000_yields_18_chunks "u" "doc.txt" (List.replicate 50000 'a')
    (List.length_replicate _ _)
    (fun c hc => by rw [List.eq_of_mem_replicate hc]; decide)

/-! ## Cosine scorer (lines 220–224)

`cosine` runs on IEEE floats; it is idealised over the reals, the `for`
loop over the indices of `a` embedded as a finite sum (the loop bound is
`a.length` for all three accumulators, as in the source). -/

/-- One accumulator of the loop: `for (i = 0; i < n; i++) s += x[i] * y[i]`. -/
noncomputable def dotN (n : Nat) (x y : List ℝ) : ℝ :=
  (Finset.range n).sum fun i => x.getD i 0 * y.getD i 0

/-- `Math.sqrt(na) * Math.sqrt(nb) + 1e-8` — the epsilon keeps the
denominator away from zero on degenerate vectors. -/
noncomputable def cosineDenom (a b : List ℝ) : ℝ :=
  Real.sqrt (dotN a.length a a) * Real.sqrt (dotN a.length b b) + 1e-8

/-- `cosine(a, b) = dot / (Math.sqrt(na) * Math.sqrt(nb) + 1e-8)`. -/
noncomputable def cosine (a b : List ℝ) : ℝ :=
  dotN a.length a b / cosineDenom a b

/-- C10 (amended): `cosine(v, v)` lies within `1e-8` of 1 for every vector
with `dot(v,v) ≥ 1` (unit-or-larger norm; for tiny non-zero vectors the
epsilon dominates and the value drops towards 0); `cosine` is symmetric on
equal-length vectors; and the denominator is strictly positive — no
division by zero — even on zero vectors. -/
theorem cosine_self_symm_defined :
    (∀ v : List ℝ, 1 ≤ dotN v.length v v → |cosine v v - 1| ≤ 1e-8) ∧
    (∀ a b : List ℝ, a.length = b.length → cosine a b = cosine b a) ∧
    (∀ a b : List ℝ, 0 < cosineDenom a b) := by
  refine ⟨?_, ?_, ?_⟩
  · intro v h1
    have hS0 : (0 : ℝ) ≤ dotN v.length v v := le_trans zero_le_one h1
    have hpos : (0 : ℝ) < dotN v.length v v + 1e-8 := by
      norm_num
      nlinarith
    unfold cosine cosineDenom
    rw [Real.mul_self_sqrt hS0]
    have heq : dotN v.length v v / (dotN v.length v v + 1e-8) - 1 =
        -(1e-8 / (dotN v.length v v + 1e-8)) := by
      field_simp
    rw [heq, abs_neg, abs_of_nonneg (by positivity)]
    rw [div_le_iff₀ hpos]
    nlinarith
  · intro a b h
    unfold cosine cosineDenom dotN
    rw [← h]
    congr 1
    · exact Finset.sum_congr rfl fun i _ => mul_comm _ _
    · rw [mul_comm]
  · intro a b
    unfold cosineDenom
    have := Real.sqrt_nonneg (dotN a.length a a)
    have := Real.sqrt_nonneg (dotN a.length b b)
    nlinarith

/-- C10 (counterexample): for the non-zero single-component vector
`v = [1/10000]`, the epsilon equals `dot(v,v)` and `cosine(v, v) = 1/2` —
not approximately 1 — refuting the claim for arbitrary non-zero vectors. -/
theorem cosine_tiny_vector_counterexample :
    cosine [(1 : ℝ)/10000] [(1 : ℝ)/10000] = 1/2 ∧
    ¬ |cosine [(1 : ℝ)/10000] [(1 : ℝ)/10000] - 1| ≤ 1/100 := by
  have h : cosine [(1 : ℝ)/10000] [(1 : ℝ)/10000] = 1/2 := by
    unfold cosine cosineDenom dotN
    simp only [List.length_singleton, Finset.sum_range_one, List.getD]
    rw [Real.mul_self_sqrt (by norm_num)]
    norm_num
  refine ⟨h, ?_⟩
  rw [h]
  rw [abs_of_neg (by norm_num)]
  norm_num

/-- C10 (witness): the unit vector `[1]` has `cosine([1],[1])` within
`1e-8` of 1, and `cosine([1],[2]) = cosine([2],[1])`. -/
theorem cosine_self_symm_defined_witness :
    |cosine [(1 : ℝ)] [(1 : ℝ)] - 1| ≤ 1e-8 ∧
    cosine [(1 : ℝ)] [(2 : ℝ)] = cosine [(2 : ℝ)] [(1 : ℝ)] :=
  ⟨cosine_self_symm_defined.1 [(1 : ℝ)]
      (by simp [dotN, Finset.sum_range_one, List.getD]),
   cosine_self_symm_defined.2.1 [(1 : ℝ)] [(2 : ℝ)] rfl⟩

set_option maxRecDepth 20000 in
/-- C1 (witness): concrete over-cap scope (500 + 301 = 801 > 800 chunks,
two documents): the capped contribution of the 500-chunk document obeys
the ceil bound and is non-empty. -/
theorem limitScope_le_ceil_witness :
    ((docWithChunks "A" 500, (docWithChunks "A" 500).chunks.take 400) :
        Doc × List Chunk).2.length ≤
      ceilDiv 800 ([docWithChunks "A" 500, docWithChunks "B" 301] : List Doc).length ∧
    ((docWithChunks "A" 500).chunks ≠ [] →
      (docWithChunks "A" 500).chunks.take 400 ≠ []) := by
  have h := limitScope_le_ceil_of_over_cap
      [docWithChunks "A" 500, docWithChunks "B" 301]
      (docWithChunks "A" 500, (docWithChunks "A" 500).chunks.take 400) (by decide)
  exact h.2 (by decide)
